import Mathlib

/-!
Shallow embedding of the plan-orchestration core of the `visual_workflow`
repository (a desktop automation assistant written in Python with pydantic
models).  The embedding translates:

* `src/assistant/models/actions.py` — the closed set of action variants,
  the `AnyAction` union and the `Plan` container, together with pydantic's
  validation of raw step records (dictionaries of JSON values).
* `src/assistant/models/common.py` — `BoundingBox` with its field and
  model validators and `calculate_center`.
* `src/assistant/services/openai_service.py` — the response
  post-processing of `OpenAIService.generate_plan`.
* `src/assistant/services/replicate_service.py` — the remote-job polling
  loop of `ReplicateVLMService.analyze_image` (fuel-indexed).
* `src/assistant/services/desktop_control/pyautogui_controller.py` —
  coordinate validation and the mouse/keyboard operations, with the
  outbound input injections reified as events.
* the Execution Engine (`src/assistant/orchestrator.py` is imported by
  `src/main.py` but the file is absent from the repository), modelled
  from the specification where noted.

Machine integers are modelled as `Int` (Python integers are unbounded, so
no wrap-around is involved); Python floats are modelled as `Rat`; fallible
code returns `Except`.
-/

deriving instance DecidableEq for Except

namespace VW

/-- A JSON-like value, as produced by `json.loads` and consumed by pydantic
validation.  Objects are association lists (Python dicts cannot hold
duplicate keys; lookup takes the first binding). -/
inductive JVal where
  | null
  | bool (b : Bool)
  | int (n : Int)
  | num (q : Rat)
  | str (s : String)
  | arr (elems : List JVal)
  | obj (fields : List (String × JVal))

/-- A raw step record: one dictionary of the raw plan, prior to validation. -/
abbrev RawStep := List (String × JVal)

/-- Dictionary lookup on a raw record. -/
def RawStep.get (r : RawStep) (k : String) : Option JVal :=
  (r.find? (fun p => p.1 == k)).map (fun p => p.2)

/-- The four scroll direction literals of `ScrollAction.direction`. -/
inductive ScrollDir where
  | up | down | left | right
deriving DecidableEq, Repr

/-- String form of a scroll direction (the JSON literal). -/
def ScrollDir.toStr : ScrollDir → String
  | .up => "up"
  | .down => "down"
  | .left => "left"
  | .right => "right"

/-- The closed set of action variants of `actions.py` (`AnyAction`).  Every
variant carries the optional free-text `reason` inherited from
`BaseAction`.  Field types follow the pydantic annotations: `Optional[int]`
becomes `Option Int`, `float` becomes `Rat`, and the `success` literals of
`TaskCompleteAction` and `TaskFailedAction` are fixed by the constructor. -/
inductive Action where
  | click (x y : Option Int) (description : Option String) (reason : Option String)
  | doubleClick (x y : Option Int) (description : Option String) (reason : Option String)
  | typeText (text : String) (interval : Rat) (reason : Option String)
  | openApplication (application_name : String) (reason : Option String)
  | navigateWebsite (url : String) (reason : Option String)
  | takeScreenshot (reason : Option String)
  | analyzeScreenshot (prompt : String) (reason : Option String)
  | pressKey (key_name : String) (reason : Option String)
  | wait (duration_ms : Int) (reason : Option String)
  | findApp (app_name : String) (reason : Option String)
  | scroll (direction : ScrollDir) (amount : Int) (reason : Option String)
  | moveMouse (x y : Int) (duration : Rat) (reason : Option String)
  | taskComplete (message : Option String) (reason : Option String)
  | taskFailed (message : Option String) (reason : Option String)
deriving DecidableEq, Repr

/-- A pydantic validation error, reduced to the offending field and the
kind of failure (pydantic additionally carries human-readable messages). -/
inductive VErr where
  | missing (field : String)
  | badType (field : String)
  | outOfRange (field : String)
  | literalMismatch (field : String)
  | noVariant
deriving DecidableEq, Repr

/-- Decode an `Optional[int]` field: absent or `None` gives `none`; an
integer gives `some`; any other JSON value is a type error. -/
def decOptInt (r : RawStep) (k : String) : Except VErr (Option Int) :=
  match r.get k with
  | none => .ok none
  | some .null => .ok none
  | some (.int n) => .ok (some n)
  | some _ => .error (.badType k)

/-- Decode an `Optional[str]` field. -/
def decOptStr (r : RawStep) (k : String) : Except VErr (Option String) :=
  match r.get k with
  | none => .ok none
  | some .null => .ok none
  | some (.str s) => .ok (some s)
  | some _ => .error (.badType k)

/-- Decode a required `str` field: absence is a `missing` error. -/
def decReqStr (r : RawStep) (k : String) : Except VErr String :=
  match r.get k with
  | none => .error (.missing k)
  | some (.str s) => .ok s
  | some _ => .error (.badType k)

/-- Decode a required `int` field. -/
def decReqInt (r : RawStep) (k : String) : Except VErr Int :=
  match r.get k with
  | none => .error (.missing k)
  | some (.int n) => .ok n
  | some _ => .error (.badType k)

/-- Decode a `float` field with a default.  Pydantic accepts both JSON
integers (coerced) and JSON numbers for a `float` annotation. -/
def decFloatDefault (r : RawStep) (k : String) (dflt : Rat) : Except VErr Rat :=
  match r.get k with
  | none => .ok dflt
  | some (.int n) => .ok (n : Rat)
  | some (.num q) => .ok q
  | some _ => .error (.badType k)

/-- Decode a `float` field with a default and a `ge=0` constraint
(`MoveMouseAction.duration`). -/
def decFloatGe0Default (r : RawStep) (k : String) (dflt : Rat) : Except VErr Rat :=
  match decFloatDefault r k dflt with
  | .error e => .error e
  | .ok q => if q < 0 then .error (.outOfRange k) else .ok q

/-- Decode an `int` field with a default (`ScrollAction.amount`). -/
def decIntDefault (r : RawStep) (k : String) (dflt : Int) : Except VErr Int :=
  match r.get k with
  | none => .ok dflt
  | some (.int n) => .ok n
  | some _ => .error (.badType k)

/-- Decode an `int` field with a default and a `ge=0` constraint
(`WaitAction.duration_ms`). -/
def decIntGe0Default (r : RawStep) (k : String) (dflt : Int) : Except VErr Int :=
  match decIntDefault r k dflt with
  | .error e => .error e
  | .ok n => if n < 0 then .error (.outOfRange k) else .ok n

/-- Decode `ScrollAction.direction`, a required field constrained to the
four literals. -/
def decDirection (r : RawStep) : Except VErr ScrollDir :=
  match r.get "direction" with
  | none => .error (.missing "direction")
  | some (.str "up") => .ok .up
  | some (.str "down") => .ok .down
  | some (.str "left") => .ok .left
  | some (.str "right") => .ok .right
  | some _ => .error (.literalMismatch "direction")

/-- Decode a `Literal[b]` boolean field with default `b` (the `success`
fields of the terminal actions). -/
def decSuccessLit (r : RawStep) (b : Bool) : Except VErr Unit :=
  match r.get "success" with
  | none => .ok ()
  | some (.bool c) => if c = b then .ok () else .error (.literalMismatch "success")
  | some _ => .error (.literalMismatch "success")

/-- Check the `action` discriminant of one union member: every variant
declares `action: Literal[lit] = lit`, so an absent field takes the default
and validates, while a present field must equal the literal exactly. -/
def checkActionLit (r : RawStep) (lit : String) : Except VErr Unit :=
  match r.get "action" with
  | none => .ok ()
  | some (.str s) => if s = lit then .ok () else .error (.literalMismatch "action")
  | some _ => .error (.literalMismatch "action")

/-- Field decoder for `ClickAction` (after the discriminant check). -/
def clickFields (r : RawStep) : Except VErr Action :=
  match decOptStr r "reason" with
  | .error e => .error e
  | .ok reason =>
    match decOptInt r "x" with
    | .error e => .error e
    | .ok x =>
      match decOptInt r "y" with
      | .error e => .error e
      | .ok y =>
        match decOptStr r "description" with
        | .error e => .error e
        | .ok d => .ok (.click x y d reason)

/-- Field decoder for `DoubleClickAction`. -/
def doubleClickFields (r : RawStep) : Except VErr Action :=
  match decOptStr r "reason" with
  | .error e => .error e
  | .ok reason =>
    match decOptInt r "x" with
    | .error e => .error e
    | .ok x =>
      match decOptInt r "y" with
      | .error e => .error e
      | .ok y =>
        match decOptStr r "description" with
        | .error e => .error e
        | .ok d => .ok (.doubleClick x y d reason)

/-- Field decoder for `TypeTextAction` (`interval: float = 0.01`). -/
def typeTextFields (r : RawStep) : Except VErr Action :=
  match decOptStr r "reason" with
  | .error e => .error e
  | .ok reason =>
    match decReqStr r "text" with
    | .error e => .error e
    | .ok t =>
      match decFloatDefault r "interval" (1 / 100) with
      | .error e => .error e
      | .ok i => .ok (.typeText t i reason)

/-- Field decoder for `OpenApplicationAction`. -/
def openApplicationFields (r : RawStep) : Except VErr Action :=
  match decOptStr r "reason" with
  | .error e => .error e
  | .ok reason =>
    match decReqStr r "application_name" with
    | .error e => .error e
    | .ok n => .ok (.openApplication n reason)

/-- Field decoder for `NavigateWebsiteAction`. -/
def navigateWebsiteFields (r : RawStep) : Except VErr Action :=
  match decOptStr r "reason" with
  | .error e => .error e
  | .ok reason =>
    match decReqStr r "url" with
    | .error e => .error e
    | .ok u => .ok (.navigateWebsite u reason)

/-- Field decoder for `TakeScreenshotAction`. -/
def takeScreenshotFields (r : RawStep) : Except VErr Action :=
  match decOptStr r "reason" with
  | .error e => .error e
  | .ok reason => .ok (.takeScreenshot reason)

/-- Field decoder for `AnalyzeScreenshotAction`. -/
def analyzeScreenshotFields (r : RawStep) : Except VErr Action :=
  match decOptStr r "reason" with
  | .error e => .error e
  | .ok reason =>
    match decReqStr r "prompt" with
    | .error e => .error e
    | .ok p => .ok (.analyzeScreenshot p reason)

/-- Field decoder for `PressKeyAction`. -/
def pressKeyFields (r : RawStep) : Except VErr Action :=
  match decOptStr r "reason" with
  | .error e => .error e
  | .ok reason =>
    match decReqStr r "key_name" with
    | .error e => .error e
    | .ok k => .ok (.pressKey k reason)

/-- Field decoder for `WaitAction` (`duration_ms: int = 1000`, `ge=0`). -/
def waitFields (r : RawStep) : Except VErr Action :=
  match decOptStr r "reason" with
  | .error e => .error e
  | .ok reason =>
    match decIntGe0Default r "duration_ms" 1000 with
    | .error e => .error e
    | .ok d => .ok (.wait d reason)

/-- Field decoder for `FindAppAction`. -/
def findAppFields (r : RawStep) : Except VErr Action :=
  match decOptStr r "reason" with
  | .error e => .error e
  | .ok reason =>
    match decReqStr r "app_name" with
    | .error e => .error e
    | .ok n => .ok (.findApp n reason)

/-- Field decoder for `ScrollAction` (`amount: int = 10`). -/
def scrollFields (r : RawStep) : Except VErr Action :=
  match decOptStr r "reason" with
  | .error e => .error e
  | .ok reason =>
    match decDirection r with
    | .error e => .error e
    | .ok d =>
      match decIntDefault r "amount" 10 with
      | .error e => .error e
      | .ok a => .ok (.scroll d a reason)

/-- Field decoder for `MoveMouseAction` (`duration: float = 0.2`, `ge=0`). -/
def moveMouseFields (r : RawStep) : Except VErr Action :=
  match decOptStr r "reason" with
  | .error e => .error e
  | .ok reason =>
    match decReqInt r "x" with
    | .error e => .error e
    | .ok x =>
      match decReqInt r "y" with
      | .error e => .error e
      | .ok y =>
        match decFloatGe0Default r "duration" (2 / 10) with
        | .error e => .error e
        | .ok d => .ok (.moveMouse x y d reason)

/-- Field decoder for `TaskCompleteAction` (`success: Literal[True] = True`). -/
def taskCompleteFields (r : RawStep) : Except VErr Action :=
  match decOptStr r "reason" with
  | .error e => .error e
  | .ok reason =>
    match decOptStr r "message" with
    | .error e => .error e
    | .ok m =>
      match decSuccessLit r true with
      | .error e => .error e
      | .ok _ => .ok (.taskComplete m reason)

/-- Field decoder for `TaskFailedAction` (`success: Literal[False] = False`). -/
def taskFailedFields (r : RawStep) : Except VErr Action :=
  match decOptStr r "reason" with
  | .error e => .error e
  | .ok reason =>
    match decOptStr r "message" with
    | .error e => .error e
    | .ok m =>
      match decSuccessLit r false with
      | .error e => .error e
      | .ok _ => .ok (.taskFailed m reason)

/-- One union member: its `action` literal paired with its field decoder. -/
def decodeVariant (lit : String) (k : RawStep → Except VErr Action) (r : RawStep) :
    Except VErr Action :=
  match checkActionLit r lit with
  | .error e => .error e
  | .ok _ => k r

/-- The members of `AnyAction` in declaration order (the order pydantic
tries them in for a non-discriminated `Union`). -/
def anyActionVariants : List (String × (RawStep → Except VErr Action)) :=
  [("CLICK", clickFields),
   ("DOUBLE_CLICK", doubleClickFields),
   ("TYPE_TEXT", typeTextFields),
   ("OPEN_APPLICATION", openApplicationFields),
   ("NAVIGATE_TO_WEBSITE", navigateWebsiteFields),
   ("TAKE_SCREENSHOT", takeScreenshotFields),
   ("ANALYZE_SCREENSHOT", analyzeScreenshotFields),
   ("PRESS_KEY", pressKeyFields),
   ("WAIT", waitFields),
   ("FIND_APP", findAppFields),
   ("SCROLL", scrollFields),
   ("MOVE_MOUSE", moveMouseFields),
   ("TASK_COMPLETE", taskCompleteFields),
   ("TASK_FAILED", taskFailedFields)]

/-- Try the union members in order; the first member that validates wins,
and the record is rejected only when every member rejects it (pydantic
smart-union semantics for `Union[...]` without a discriminator). -/
def tryVariants (r : RawStep) :
    List (String × (RawStep → Except VErr Action)) → Except VErr Action
  | [] => .error .noVariant
  | p :: rest =>
    match decodeVariant p.1 p.2 r with
    | .ok a => .ok a
    | .error _ => tryVariants r rest

/-- Validation of one raw step record against `AnyAction`. -/
def decodeAction (r : RawStep) : Except VErr Action :=
  tryVariants r anyActionVariants

/-- Validate a list of raw steps, collecting every invalid step with its
index (pydantic reports the location of each error inside `Plan.steps`). -/
def validateSteps (i : Nat) : List RawStep → List (Nat × VErr) × List Action
  | [] => ([], [])
  | r :: rest =>
    let tail := validateSteps (i + 1) rest
    match decodeAction r with
    | .ok a => (tail.1, a :: tail.2)
    | .error e => ((i, e) :: tail.1, tail.2)

/-- Validation of a raw plan against the `Plan` model: succeeds with the
ordered action sequence exactly when every step validates, and otherwise
fails with the indexed list of step errors. -/
def validatePlan (steps : List RawStep) : Except (List (Nat × VErr)) (List Action) :=
  match validateSteps 0 steps with
  | ([], acts) => .ok acts
  | (errs, _) => .error errs

/-- Serialization of an optional integer back to JSON (`model_dump`). -/
def jOptInt : Option Int → JVal
  | none => .null
  | some n => .int n

/-- Serialization of an optional string back to JSON (`model_dump`). -/
def jOptStr : Option String → JVal
  | none => .null
  | some s => .str s

/-- Serialization of an `Action` back to its raw record, following
pydantic `model_dump`: every field is emitted, defaults and `None`s
included, in field declaration order (inherited `reason` first). -/
def model_dump : Action → RawStep
  | .click x y d reason =>
    [("reason", jOptStr reason), ("action", .str "CLICK"),
     ("x", jOptInt x), ("y", jOptInt y), ("description", jOptStr d)]
  | .doubleClick x y d reason =>
    [("reason", jOptStr reason), ("action", .str "DOUBLE_CLICK"),
     ("x", jOptInt x), ("y", jOptInt y), ("description", jOptStr d)]
  | .typeText t i reason =>
    [("reason", jOptStr reason), ("action", .str "TYPE_TEXT"),
     ("text", .str t), ("interval", .num i)]
  | .openApplication n reason =>
    [("reason", jOptStr reason), ("action", .str "OPEN_APPLICATION"),
     ("application_name", .str n)]
  | .navigateWebsite u reason =>
    [("reason", jOptStr reason), ("action", .str "NAVIGATE_TO_WEBSITE"),
     ("url", .str u)]
  | .takeScreenshot reason =>
    [("reason", jOptStr reason), ("action", .str "TAKE_SCREENSHOT")]
  | .analyzeScreenshot p reason =>
    [("reason", jOptStr reason), ("action", .str "ANALYZE_SCREENSHOT"),
     ("prompt", .str p)]
  | .pressKey k reason =>
    [("reason", jOptStr reason), ("action", .str "PRESS_KEY"),
     ("key_name", .str k)]
  | .wait d reason =>
    [("reason", jOptStr reason), ("action", .str "WAIT"),
     ("duration_ms", .int d)]
  | .findApp n reason =>
    [("reason", jOptStr reason), ("action", .str "FIND_APP"),
     ("app_name", .str n)]
  | .scroll dir a reason =>
    [("reason", jOptStr reason), ("action", .str "SCROLL"),
     ("direction", .str dir.toStr), ("amount", .int a)]
  | .moveMouse x y d reason =>
    [("reason", jOptStr reason), ("action", .str "MOVE_MOUSE"),
     ("x", .int x), ("y", .int y), ("duration", .num d)]
  | .taskComplete m reason =>
    [("reason", jOptStr reason), ("action", .str "TASK_COMPLETE"),
     ("message", jOptStr m), ("success", .bool true)]
  | .taskFailed m reason =>
    [("reason", jOptStr reason), ("action", .str "TASK_FAILED"),
     ("message", jOptStr m), ("success", .bool false)]

/-- Serialization of a validated plan back to its raw form. -/
def planDump (acts : List Action) : List RawStep :=
  acts.map model_dump

/-- Is a JSON value a recognized discriminant: a string belonging to the
closed set of `action` literals? -/
def isRecognizedDiscriminant (v : JVal) : Bool :=
  match v with
  | .str s => (anyActionVariants.map Prod.fst).contains s
  | _ => false

/-- A point on the screen (`Coordinates` of `common.py`). -/
structure Coordinates where
  x : Int
  y : Int
deriving DecidableEq, Repr

/-- A rectangular area on the screen (`BoundingBox` of `common.py`);
the pydantic validators are embedded in `mkBoundingBox` below. -/
structure BoundingBox where
  x_min : Int
  y_min : Int
  x_max : Int
  y_max : Int
deriving DecidableEq, Repr

/-- The `coords_must_be_positive` field validator of `BoundingBox`. -/
def coords_must_be_positive (v : Int) : Except String Int :=
  if v < 0 then .error "Bounding box coordinates must be non-negative" else .ok v

/-- The `check_min_max_order` model validator of `BoundingBox` (runs after
the field validators). -/
def check_min_max_order (bb : BoundingBox) : Except String BoundingBox :=
  if bb.x_max ≤ bb.x_min then .error "x_max must be strictly greater than x_min"
  else if bb.y_max ≤ bb.y_min then .error "y_max must be strictly greater than y_min"
  else .ok bb

/-- Construction of a `BoundingBox` as pydantic performs it: each field
validator in declaration order, then the model validator. -/
def mkBoundingBox (x_min y_min x_max y_max : Int) : Except String BoundingBox :=
  match coords_must_be_positive x_min with
  | .error e => .error e
  | .ok a =>
    match coords_must_be_positive y_min with
    | .error e => .error e
    | .ok b =>
      match coords_must_be_positive x_max with
      | .error e => .error e
      | .ok c =>
        match coords_must_be_positive y_max with
        | .error e => .error e
        | .ok d => check_min_max_order ⟨a, b, c, d⟩

/-- The `calculate_center` method of `BoundingBox`.  Python `//` is floor
division, hence `Int.fdiv`. -/
def BoundingBox.calculate_center (bb : BoundingBox) : Coordinates :=
  ⟨bb.x_min + (bb.x_max - bb.x_min).fdiv 2,
   bb.y_min + (bb.y_max - bb.y_min).fdiv 2⟩

/-- The screen dimensions fetched by `PyAutoGUIController.__init__` via
`pyautogui.size()`. -/
structure Screen where
  width : Int
  height : Int
deriving DecidableEq, Repr

/-- A `DesktopControlError`, reduced to the condition it reports. -/
inductive DesktopControlError where
  | outOfBounds (x y : Int)
  | invalidKey (key_name : String)
deriving DecidableEq, Repr

/-- An input injection dispatched to the OS by the controller.  An
operation that fails validation returns an error and dispatches nothing:
in the source, `_validate_coordinates` (or the key check) raises before
any `pyautogui` call is made. -/
inductive DesktopEvent where
  | clickAt (x y : Int)
  | doubleClickAt (x y : Int)
  | moveTo (x y : Int) (duration : Rat)
  | keyPress (key : String)
deriving DecidableEq, Repr

/-- `PyAutoGUIController._validate_coordinates`: coordinates are in bounds
when `0 <= x < width and 0 <= y < height`. -/
def validate_coordinates (s : Screen) (x y : Int) : Bool :=
  decide (0 ≤ x) && decide (x < s.width) && decide (0 ≤ y) && decide (y < s.height)

/-- `PyAutoGUIController.click`: validate, then dispatch a single click. -/
def click (s : Screen) (x y : Int) : Except DesktopControlError DesktopEvent :=
  if validate_coordinates s x y then .ok (.clickAt x y)
  else .error (.outOfBounds x y)

/-- `PyAutoGUIController.double_click`. -/
def double_click (s : Screen) (x y : Int) : Except DesktopControlError DesktopEvent :=
  if validate_coordinates s x y then .ok (.doubleClickAt x y)
  else .error (.outOfBounds x y)

/-- `PyAutoGUIController.move_mouse`. -/
def move_mouse (s : Screen) (x y : Int) (duration : Rat) :
    Except DesktopControlError DesktopEvent :=
  if validate_coordinates s x y then .ok (.moveTo x y duration)
  else .error (.outOfBounds x y)

/-- Python `str.lower`, applied characterwise (key names are ASCII). -/
def str_lower (s : String) : String := String.mk (s.data.map Char.toLower)

/-- `PyAutoGUIController.press_key`: lowercase the name, reject it when the
lowercased form is not among `pyautogui.KEYBOARD_KEYS` (passed here as
`valid_keys` since the key set belongs to the external library), otherwise
press the lowercased key. -/
def press_key (valid_keys : List String) (key_name : String) :
    Except DesktopControlError DesktopEvent :=
  let normalized_key := str_lower key_name
  if valid_keys.contains normalized_key then .ok (.keyPress normalized_key)
  else .error (.invalidKey key_name)

/-- The terminal statuses of a Replicate prediction, as listed in
`ReplicateVLMService.analyze_image`. -/
def terminalStatuses : List String := ["succeeded", "failed", "canceled"]

/-- Whether a remote job status ends the polling loop. -/
def isTerminalStatus (s : String) : Bool := terminalStatuses.contains s

/-- The `while True` polling loop of `analyze_image`, fuel-indexed: poll
`k` reads `status k`; the loop breaks at the first terminal status and
otherwise sleeps and re-polls.  `none` means the fuel ran out with the
loop still running — the source has no iteration ceiling, so divergence is
exactly `∀ fuel, none`. -/
def pollLoop (status : Nat → String) : Nat → Nat → Option Nat
  | 0, _ => none
  | fuel + 1, k =>
    if isTerminalStatus (status k) then some k else pollLoop status fuel (k + 1)

/-- An `LLMError` raised by `generate_plan`, reduced to its cause. -/
inductive LLMError where
  | emptyContent
  | invalidJson (msg : String)
  | missingPlanList
deriving DecidableEq, Repr

/-- The response post-processing of `OpenAIService.generate_plan`: the
message content (`none` models Python `None`; the empty string is also
falsy), `json.loads` (the external parser, passed as `parse`), then the
`{"plan": [...]}` container check; on success the function returns exactly
the list stored under the `plan` key. -/
def generate_plan_extract (content : Option String)
    (parse : String → Except String JVal) : Except LLMError (List JVal) :=
  match content with
  | none => .error .emptyContent
  | some s =>
    if s = "" then .error .emptyContent
    else
      match parse s with
      | .error msg => .error (.invalidJson msg)
      | .ok v =>
        match v with
        | .obj fields =>
          match RawStep.get fields "plan" with
          | some (.arr steps) => .ok steps
          | _ => .error .missingPlanList
        | _ => .error .missingPlanList

/-- Modelled from the spec: the terminal outcome of one plan execution
(§3 ExecutionOutcome).  The Execution Engine itself
(`src/assistant/orchestrator.py`) is imported by `src/main.py` but absent
from the repository. -/
inductive Outcome where
  | Completed (message : Option String)
  | Failed (message : Option String)
  | Aborted (cause : String)
deriving DecidableEq, Repr

/-- Modelled from the spec: the collaborators the engine drives — the
Grounding Resolver's answer per description (§4.3: a center point or "not
found") and the desktop-control dispatch result per action (§4.4 step 2). -/
structure ExecEnv where
  ground : String → Option Coordinates
  dispatch : Action → Except String Unit

/-- Is the action the success terminal `TASK_COMPLETE`? -/
def isTaskComplete : Action → Bool
  | .taskComplete _ _ => true
  | _ => false

/-- Is the action the failure terminal `TASK_FAILED`? -/
def isTaskFailed : Action → Bool
  | .taskFailed _ _ => true
  | _ => false

/-- The message carried by a terminal action. -/
def terminalMessage : Action → Option String
  | .taskComplete m _ => m
  | .taskFailed m _ => m
  | _ => none

/-- Modelled from the spec: target resolution for `Click`/`DoubleClick`
(§4.4 step 1, §3): explicit coordinates win; otherwise the description is
grounded; with neither present the action cannot be resolved. -/
def resolveTarget (ground : String → Option Coordinates)
    (x y : Option Int) (descr : Option String) : Option Coordinates :=
  match x, y with
  | some a, some b => some ⟨a, b⟩
  | _, _ =>
    match descr with
    | some d => ground d
    | none => none

/-- Modelled from the spec: execution of one non-terminal step (§4.4 steps
1–2): clicks resolve their target first and fail the step when resolution
reports nothing; every action then dispatches to the control surface. -/
def execStep (env : ExecEnv) (a : Action) : Except String Unit :=
  match a with
  | .click x y d _ =>
    match resolveTarget env.ground x y d with
    | some _ => env.dispatch a
    | none => .error "click target could not be resolved"
  | .doubleClick x y d _ =>
    match resolveTarget env.ground x y d with
    | some _ => env.dispatch a
    | none => .error "double click target could not be resolved"
  | _ => env.dispatch a

/-- Modelled from the spec: the dispatch loop of the Execution Engine
(§4.4 steps 1–6, absent `orchestrator.py`): terminal actions end the run
immediately, a failing step ends it `Failed` with that cause and no retry,
and an exhausted sequence ends `Completed` with no message.  The second
component records the non-terminal actions executed, in order. -/
def execActions (env : ExecEnv) : List Action → Outcome × List Action
  | [] => (.Completed none, [])
  | a :: rest =>
    if isTaskComplete a then (.Completed (terminalMessage a), [])
    else if isTaskFailed a then (.Failed (terminalMessage a), [])
    else
      match execStep env a with
      | .error e => (.Failed (some e), [a])
      | .ok _ =>
        let tail := execActions env rest
        (tail.1, a :: tail.2)

/-! ## Supporting lemmas -/


/-- Closed form of `validate_coordinates`. -/
theorem validate_coordinates_iff (s : Screen) (x y : Int) :
    validate_coordinates s x y = true ↔
      (0 ≤ x ∧ x < s.width ∧ 0 ≤ y ∧ y < s.height) := by
  simp [validate_coordinates, and_assoc]

/-- A poll index returned by the loop carries a terminal status. -/
theorem pollLoop_some_terminal (status : Nat → String) (fuel : Nat) :
    ∀ k j, pollLoop status fuel k = some j → isTerminalStatus (status j) = true := by
  induction fuel with
  | zero => intro k j h; simp [pollLoop] at h
  | succ n ih =>
    intro k j h
    unfold pollLoop at h
    by_cases ht : isTerminalStatus (status k) = true
    · simp [ht] at h
      exact h ▸ ht
    · simp [Bool.not_eq_true] at ht
      simp [ht] at h
      exact ih _ _ h

/-- If a terminal status appears, enough fuel makes the loop break. -/
theorem pollLoop_reaches (status : Nat → String) (d : Nat) :
    ∀ start, isTerminalStatus (status (start + d)) = true →
      ∃ j, pollLoop status (d + 1) start = some j := by
  induction d with
  | zero =>
    intro start h
    rw [Nat.add_zero] at h
    exact ⟨start, by simp [pollLoop, h]⟩
  | succ n ih =>
    intro start h
    by_cases ht : isTerminalStatus (status start) = true
    · exact ⟨start, by simp [pollLoop, ht]⟩
    · have h2 : isTerminalStatus (status (start + 1 + n)) = true := by
        have : start + 1 + n = start + (n + 1) := by omega
        rw [this]; exact h
      obtain ⟨j, hj⟩ := ih (start + 1) h2
      refine ⟨j, ?_⟩
      simp [Bool.not_eq_true] at ht
      simp [pollLoop, ht]
      exact hj

/-- A range invariant guaranteed by validation: the two `ge=0` constrained
fields are non-negative in every validated action. -/
def actionWF : Action → Prop
  | .wait d _ => 0 ≤ d
  | .moveMouse _ _ dur _ => 0 ≤ dur
  | _ => True

/-- A successful `decIntGe0Default` result is non-negative. -/
theorem decIntGe0Default_ok (r : RawStep) (k : String) (dflt n : Int)
    (h : decIntGe0Default r k dflt = .ok n) : 0 ≤ n := by
  unfold decIntGe0Default at h
  split at h
  · cases h
  · split at h
    · cases h
    · cases h
      omega

/-- A successful `decFloatGe0Default` result is non-negative. -/
theorem decFloatGe0Default_ok (r : RawStep) (k : String) (dflt q : Rat)
    (h : decFloatGe0Default r k dflt = .ok q) : 0 ≤ q := by
  unfold decFloatGe0Default at h
  split at h
  · cases h
  · split at h
    · cases h
    · cases h
      exact not_lt.mp (by assumption)

/-- A variant that validates did so through its own field decoder. -/
theorem decodeVariant_ok (lit : String) (k : RawStep → Except VErr Action)
    (r : RawStep) (a : Action) (h : decodeVariant lit k r = .ok a) :
    k r = .ok a := by
  unfold decodeVariant at h
  split at h
  · cases h
  · exact h

/-- A record accepted by the union was accepted by some member's decoder. -/
theorem tryVariants_ok (r : RawStep)
    (vs : List (String × (RawStep → Except VErr Action))) (a : Action)
    (h : tryVariants r vs = .ok a) : ∃ p ∈ vs, p.2 r = .ok a := by
  induction vs with
  | nil => simp [tryVariants] at h
  | cons p rest ih =>
    unfold tryVariants at h
    cases hd : decodeVariant p.1 p.2 r with
    | ok b =>
      rw [hd] at h
      simp at h
      exact ⟨p, List.mem_cons_self p rest,
        h ▸ decodeVariant_ok p.1 p.2 r b hd⟩
    | error e =>
      rw [hd] at h
      simp at h
      obtain ⟨q, hq, hk⟩ := ih h
      exact ⟨q, List.mem_cons_of_mem p hq, hk⟩

/-- Every action produced by `decodeAction` satisfies the range invariant. -/
theorem decodeAction_wf (r : RawStep) (a : Action)
    (h : decodeAction r = .ok a) : actionWF a := by
  obtain ⟨p, hp, hk⟩ := tryVariants_ok r anyActionVariants a h
  simp [anyActionVariants] at hp
  rcases hp with rfl | rfl | rfl | rfl | rfl | rfl | rfl | rfl | rfl | rfl |
    rfl | rfl | rfl | rfl <;>
    dsimp only at hk <;>
    simp only [clickFields, doubleClickFields, typeTextFields,
      openApplicationFields, navigateWebsiteFields, takeScreenshotFields,
      analyzeScreenshotFields, pressKeyFields, waitFields, findAppFields,
      scrollFields, moveMouseFields, taskCompleteFields,
      taskFailedFields] at hk <;>
    (repeat' split at hk) <;> cases hk <;>
    first
      | trivial
      | exact decIntGe0Default_ok _ _ _ _ (by assumption)
      | exact decFloatGe0Default_ok _ _ _ _ (by assumption)

/-- Serializing a validated action and re-validating restores it. -/
theorem decode_dump (a : Action) (hwf : actionWF a) :
    decodeAction (model_dump a) = .ok a := by
  cases a with
  | click x y d reason => cases x <;> cases y <;> cases d <;> cases reason <;> rfl
  | doubleClick x y d reason =>
    cases x <;> cases y <;> cases d <;> cases reason <;> rfl
  | typeText t i reason => cases reason <;> rfl
  | openApplication n reason => cases reason <;> rfl
  | navigateWebsite u reason => cases reason <;> rfl
  | takeScreenshot reason => cases reason <;> rfl
  | analyzeScreenshot p reason => cases reason <;> rfl
  | pressKey k reason => cases reason <;> rfl
  | wait d reason =>
    have hnl : ¬(d < 0) := not_lt.mpr hwf
    cases reason <;>
      simp [decodeAction, anyActionVariants, tryVariants, decodeVariant,
        checkActionLit, clickFields, doubleClickFields, typeTextFields,
        openApplicationFields, navigateWebsiteFields, takeScreenshotFields,
        analyzeScreenshotFields, pressKeyFields, waitFields, model_dump,
        RawStep.get, jOptStr, decOptStr, decOptInt, decReqStr,
        decFloatDefault, decIntGe0Default, decIntDefault, List.find?, hnl]
  | findApp n reason => cases reason <;> rfl
  | scroll dir amt reason => cases dir <;> cases reason <;> rfl
  | moveMouse x y dur reason =>
    have hnl : ¬(dur < 0) := not_lt.mpr hwf
    cases reason <;>
      simp [decodeAction, anyActionVariants, tryVariants, decodeVariant,
        checkActionLit, clickFields, doubleClickFields, typeTextFields,
        openApplicationFields, navigateWebsiteFields, takeScreenshotFields,
        analyzeScreenshotFields, pressKeyFields, waitFields, findAppFields,
        scrollFields, moveMouseFields, model_dump, RawStep.get, jOptStr,
        decOptStr, decOptInt, decReqStr, decReqInt, decFloatDefault,
        decFloatGe0Default, decIntGe0Default, decIntDefault, decDirection,
        List.find?, hnl]
  | taskComplete m reason => cases m <;> cases reason <;> rfl
  | taskFailed m reason => cases m <;> cases reason <;> rfl

/-- Re-validating a dumped plan of wellformed actions restores them all. -/
theorem validateSteps_dump (acts : List Action)
    (hdec : ∀ a ∈ acts, decodeAction (model_dump a) = .ok a) :
    ∀ i, validateSteps i (planDump acts) = ([], acts) := by
  induction acts with
  | nil => intro i; rfl
  | cons a rest ih =>
    intro i
    have h1 := hdec a (List.mem_cons_self a rest)
    have h2 := ih (fun b hb => hdec b (List.mem_cons_of_mem a hb)) (i + 1)
    simp only [planDump] at h2
    simp [planDump, validateSteps, h1, h2]

/-- Every action in a validation result came from decoding some record. -/
theorem validateSteps_ok_mem (steps : List RawStep) :
    ∀ i errs acts, validateSteps i steps = (errs, acts) →
      ∀ a ∈ acts, ∃ r, decodeAction r = .ok a := by
  induction steps with
  | nil =>
    intro i errs acts h a ha
    cases h
    simp at ha
  | cons s rest ih =>
    intro i errs acts h a ha
    unfold validateSteps at h
    cases hd : decodeAction s with
    | ok b =>
      rw [hd] at h
      simp at h
      obtain ⟨h1, h2⟩ := h
      subst h2
      rcases List.mem_cons.mp ha with rfl | hmem
      · exact ⟨s, hd⟩
      · exact ih (i + 1) _ _ rfl a hmem
    | error e =>
      rw [hd] at h
      simp at h
      obtain ⟨h1, h2⟩ := h
      subst h2
      exact ih (i + 1) _ _ rfl a ha

/-- The discriminant check fails for every union member when the `action`
value is present but unrecognized. -/
theorem checkActionLit_unrecognized (r : RawStep) (v : JVal)
    (hact : r.get "action" = some v)
    (hbad : isRecognizedDiscriminant v = false) :
    ∀ p ∈ anyActionVariants,
      checkActionLit r p.1 = .error (.literalMismatch "action") := by
  intro p hp
  unfold checkActionLit
  rw [hact]
  cases v with
  | str s =>
    simp [isRecognizedDiscriminant, anyActionVariants] at hbad
    simp [anyActionVariants] at hp
    rcases hp with rfl | rfl | rfl | rfl | rfl | rfl | rfl | rfl | rfl | rfl |
      rfl | rfl | rfl | rfl <;> simp [hbad]
  | null => rfl
  | bool b => rfl
  | int n => rfl
  | num q => rfl
  | arr l => rfl
  | obj fields => rfl

/-- A record with a present but unrecognized discriminant is rejected by
every union member, hence by the whole union. -/
theorem decodeAction_unrecognized (r : RawStep) (v : JVal)
    (hact : r.get "action" = some v)
    (hbad : isRecognizedDiscriminant v = false) :
    decodeAction r = .error .noVariant := by
  have hall := checkActionLit_unrecognized r v hact hbad
  suffices h : ∀ vs, (∀ p ∈ vs,
      checkActionLit r p.1 = .error (.literalMismatch "action")) →
      tryVariants r vs = .error .noVariant from h anyActionVariants hall
  intro vs
  induction vs with
  | nil => intro hv; rfl
  | cons p rest ih =>
    intro hv
    have hp := hv p (List.mem_cons_self p rest)
    have hd : decodeVariant p.1 p.2 r = .error (.literalMismatch "action") := by
      unfold decodeVariant
      rw [hp]
    simp [tryVariants, hd]
    exact ih (fun q hq => hv q (List.mem_cons_of_mem p hq))

/-- A step whose record fails to decode contributes its indexed error. -/
theorem validateSteps_err_mem (i j : Nat) (steps : List RawStep) (r : RawStep)
    (hstep : steps[j]? = some r) (e : VErr)
    (hr : decodeAction r = .error e) :
    (i + j, e) ∈ (validateSteps i steps).1 := by
  induction steps generalizing i j with
  | nil => simp at hstep
  | cons s rest ih =>
    cases j with
    | zero =>
      simp at hstep
      subst hstep
      simp [validateSteps, hr]
    | succ jj =>
      simp at hstep
      have hmem := ih (i + 1) jj hstep
      have harith : i + (jj + 1) = (i + 1) + jj := by omega
      rw [harith]
      unfold validateSteps
      cases hd : decodeAction s with
      | ok b =>
        simp [hd]
        exact hmem
      | error e2 =>
        simp [hd]
        right
        exact hmem

/-- A non-empty error list makes `validatePlan` reject the plan with it. -/
theorem validatePlan_err (steps : List RawStep)
    (h : (validateSteps 0 steps).1 ≠ []) :
    validatePlan steps = .error (validateSteps 0 steps).1 := by
  unfold validatePlan
  cases hv : validateSteps 0 steps with
  | mk errs acts =>
    rw [hv] at h
    cases errs with
    | nil => simp at h
    | cons p ps => rfl

/-! ## Claim theorems -/

/-- C2: constructing a `BoundingBox` succeeds if and only if all four
coordinates are non-negative and each max strictly exceeds its min, and
every successfully constructed value satisfies that invariant. -/
theorem boundingBox_invariant (a b c d : Int) :
    (mkBoundingBox a b c d = .ok ⟨a, b, c, d⟩ ↔
      (0 ≤ a ∧ 0 ≤ b ∧ 0 ≤ c ∧ 0 ≤ d ∧ a < c ∧ b < d)) ∧
    (∀ bb : BoundingBox, mkBoundingBox a b c d = .ok bb →
      0 ≤ bb.x_min ∧ 0 ≤ bb.y_min ∧ 0 ≤ bb.x_max ∧ 0 ≤ bb.y_max ∧
      bb.x_min < bb.x_max ∧ bb.y_min < bb.y_max) := by
  constructor
  · by_cases h1 : a < 0 <;> by_cases h2 : b < 0 <;> by_cases h3 : c < 0 <;>
      by_cases h4 : d < 0 <;> by_cases h5 : c ≤ a <;> by_cases h6 : d ≤ b <;>
      simp [mkBoundingBox, coords_must_be_positive, check_min_max_order,
        h1, h2, h3, h4, h5, h6] <;> omega
  · intro bb hbb
    by_cases h1 : a < 0 <;> by_cases h2 : b < 0 <;> by_cases h3 : c < 0 <;>
      by_cases h4 : d < 0 <;> by_cases h5 : c ≤ a <;> by_cases h6 : d ≤ b <;>
      simp [mkBoundingBox, coords_must_be_positive, check_min_max_order,
        h1, h2, h3, h4, h5, h6] at hbb
    subst hbb
    show 0 ≤ a ∧ 0 ≤ b ∧ 0 ≤ c ∧ 0 ≤ d ∧ a < c ∧ b < d
    omega

/-- Witness for C2 at the concrete input `(3, 4, 7, 9)`. -/
theorem boundingBox_invariant_witness :
    mkBoundingBox 3 4 7 9 = .ok ⟨3, 4, 7, 9⟩ ∧
    (0 ≤ (3 : Int) ∧ 0 ≤ (4 : Int) ∧ 0 ≤ (7 : Int) ∧ 0 ≤ (9 : Int) ∧
      (3 : Int) < 7 ∧ (4 : Int) < 9) :=
  ⟨(boundingBox_invariant 3 4 7 9).1.mpr (by decide),
   by
     have h := (boundingBox_invariant 3 4 7 9).2 ⟨3, 4, 7, 9⟩ (by decide)
     simpa using h⟩

/-- C3: for every valid `BoundingBox`, `calculate_center` is the pair of
per-axis floor-division midpoints. -/
theorem calculate_center_eq (a b c d : Int) (bb : BoundingBox)
    (h : mkBoundingBox a b c d = .ok bb) :
    bb.calculate_center = ⟨a + (c - a).fdiv 2, b + (d - b).fdiv 2⟩ := by
  by_cases h1 : a < 0 <;> by_cases h2 : b < 0 <;> by_cases h3 : c < 0 <;>
    by_cases h4 : d < 0 <;> by_cases h5 : c ≤ a <;> by_cases h6 : d ≤ b <;>
    simp [mkBoundingBox, coords_must_be_positive, check_min_max_order,
      h1, h2, h3, h4, h5, h6] at h
  subst h
  rfl

/-- Witness for C3 at the spec's two concrete examples:
`(10,20,30,40) ↦ (20,30)` and `(0,0,100,200) ↦ (50,100)`. -/
theorem calculate_center_eq_witness :
    (mkBoundingBox 10 20 30 40 = .ok ⟨10, 20, 30, 40⟩ ∧
      (⟨10, 20, 30, 40⟩ : BoundingBox).calculate_center = ⟨20, 30⟩) ∧
    (mkBoundingBox 0 0 100 200 = .ok ⟨0, 0, 100, 200⟩ ∧
      (⟨0, 0, 100, 200⟩ : BoundingBox).calculate_center = ⟨50, 100⟩) := by
  refine ⟨⟨by decide, ?_⟩, ⟨by decide, ?_⟩⟩
  · have h := calculate_center_eq 10 20 30 40 ⟨10, 20, 30, 40⟩ (by decide)
    rw [h]; decide
  · have h := calculate_center_eq 0 0 100 200 ⟨0, 0, 100, 200⟩ (by decide)
    rw [h]; decide

/-- C8: out-of-bounds coordinates make `click`, `double_click` and
`move_mouse` fail with a `DesktopControlError` and dispatch no input, and
an unrecognized key name makes `press_key` fail likewise. -/
theorem controller_rejects_invalid (s : Screen) (x y : Int) (dur : Rat)
    (keys : List String) (name : String)
    (hxy : ¬(0 ≤ x ∧ x < s.width ∧ 0 ≤ y ∧ y < s.height))
    (hk : keys.contains (str_lower name) = false) :
    click s x y = .error (.outOfBounds x y) ∧
    double_click s x y = .error (.outOfBounds x y) ∧
    move_mouse s x y dur = .error (.outOfBounds x y) ∧
    press_key keys name = .error (.invalidKey name) := by
  have hv : validate_coordinates s x y = false := by
    rw [Bool.eq_false_iff]
    intro ht
    exact hxy ((validate_coordinates_iff s x y).mp ht)
  refine ⟨?_, ?_, ?_, ?_⟩
  · simp [click, hv]
  · simp [double_click, hv]
  · simp [move_mouse, hv]
  · have hk2 : str_lower name ∉ keys := by simpa using hk
    simp [press_key, hk2]

/-- Witness for C8: a 1920×1080 screen rejects `(2000, 500)`, and a key
set without a lowercase form of `Bogus` rejects it. -/
theorem controller_rejects_invalid_witness :
    click ⟨1920, 1080⟩ 2000 500 = .error (.outOfBounds 2000 500) ∧
    double_click ⟨1920, 1080⟩ 2000 500 = .error (.outOfBounds 2000 500) ∧
    move_mouse ⟨1920, 1080⟩ 2000 500 (1 / 2) = .error (.outOfBounds 2000 500) ∧
    press_key ["enter", "tab", "esc"] "Bogus" = .error (.invalidKey "Bogus") :=
  controller_rejects_invalid ⟨1920, 1080⟩ 2000 500 (1 / 2)
    ["enter", "tab", "esc"] "Bogus" (by decide) (by decide)

/-- C10: `press_key` lowercases the key name before the membership check,
so a name is accepted exactly when its lowercase form is recognized, the
key pressed is the lowercased name, and `ENTER` behaves like `enter`. -/
theorem press_key_case_insensitive (keys : List String) (name : String) :
    ((∃ e, press_key keys name = .ok e) ↔
      keys.contains (str_lower name) = true) ∧
    (∀ e, press_key keys name = .ok e → e = .keyPress (str_lower name)) ∧
    (keys.contains "enter" = true →
      press_key keys "ENTER" = press_key keys "enter") := by
  refine ⟨?_, ?_, ?_⟩
  · by_cases hc : keys.contains (str_lower name) = true
    · have hc2 : str_lower name ∈ keys := by simpa using hc
      simp [press_key, hc2, hc]
    · have hc2 : str_lower name ∉ keys := by simpa using hc
      simp [Bool.not_eq_true] at hc
      simp [press_key, hc2, hc]
  · intro e he
    by_cases hc2 : str_lower name ∈ keys
    · simp [press_key, hc2] at he
      exact he.symm
    · simp [press_key, hc2] at he
  · intro h
    have hl : str_lower "ENTER" = "enter" := by decide
    have hl2 : str_lower "enter" = "enter" := by decide
    have h2 : ("enter" : String) ∈ keys := by simpa using h
    simp [press_key, hl, hl2, h2]

/-- C6: `generate_plan` succeeds exactly when the response content is a
non-empty string that parses to a JSON object with a `plan` key holding a
list, in which case the result is exactly that list; empty or missing
content and unparseable JSON raise an `LLMError`. -/
theorem generate_plan_spec (content : Option String)
    (parse : String → Except String JVal) (steps : List JVal) :
    (generate_plan_extract content parse = .ok steps ↔
      ∃ s, content = some s ∧ s ≠ "" ∧
        ∃ fields, parse s = .ok (.obj fields) ∧
          RawStep.get fields "plan" = some (.arr steps)) ∧
    generate_plan_extract none parse = .error .emptyContent ∧
    generate_plan_extract (some "") parse = .error .emptyContent ∧
    (∀ s msg, s ≠ "" → parse s = .error msg →
      generate_plan_extract (some s) parse = .error (.invalidJson msg)) := by
  refine ⟨?_, rfl, by simp [generate_plan_extract], ?_⟩
  · cases content with
    | none => simp [generate_plan_extract]
    | some s =>
      by_cases hs : s = ""
      · subst hs
        simp [generate_plan_extract]
      · cases hp : parse s with
        | error msg => simp [generate_plan_extract, hs, hp]
        | ok v =>
          cases v with
          | obj fields =>
            cases hg : RawStep.get fields "plan" with
            | none => simp [generate_plan_extract, hs, hp, hg]
            | some w =>
              cases w <;> simp [generate_plan_extract, hs, hp, hg]
          | null => simp [generate_plan_extract, hs, hp]
          | bool b => simp [generate_plan_extract, hs, hp]
          | int n => simp [generate_plan_extract, hs, hp]
          | num q => simp [generate_plan_extract, hs, hp]
          | str t => simp [generate_plan_extract, hs, hp]
          | arr l => simp [generate_plan_extract, hs, hp]
  · intro s msg hs hp
    simp [generate_plan_extract, hs, hp]

/-- Witness for C6: a response with a `plan` list yields exactly that
list, and an unparseable response raises the JSON error. -/
theorem generate_plan_spec_witness :
    generate_plan_extract (some "x")
      (fun _ => .ok (.obj [("plan", .arr [])])) = .ok [] ∧
    generate_plan_extract (some "x") (fun _ => .error "bad") =
      .error (.invalidJson "bad") := by
  constructor
  · exact (generate_plan_spec (some "x")
      (fun _ => .ok (.obj [("plan", .arr [])])) []).1.mpr
      ⟨"x", rfl, by decide, [("plan", .arr [])], rfl, rfl⟩
  · exact (generate_plan_spec (some "x") (fun _ => .error "bad") []).2.2.2
      "x" "bad" (by decide) rfl

/-- C4: a `CLICK` or `DOUBLE_CLICK` record with no coordinates and no
description validates as a well-typed action, and executing such an
action always fails at dispatch time since its target cannot be resolved
(the engine half is modelled from the spec; `orchestrator.py` is absent). -/
theorem click_without_target (r : RawStep) (env : ExecEnv) (reason : Option String) :
    (r.get "action" = some (.str "CLICK") → r.get "x" = none →
      r.get "y" = none → r.get "description" = none → r.get "reason" = none →
      decodeAction r = .ok (.click none none none none)) ∧
    (r.get "action" = some (.str "DOUBLE_CLICK") → r.get "x" = none →
      r.get "y" = none → r.get "description" = none → r.get "reason" = none →
      decodeAction r = .ok (.doubleClick none none none none)) ∧
    execStep env (.click none none none reason) =
      .error "click target could not be resolved" ∧
    execStep env (.doubleClick none none none reason) =
      .error "double click target could not be resolved" := by
  refine ⟨?_, ?_, rfl, rfl⟩
  · intro ha hx hy hd hr
    simp [decodeAction, anyActionVariants, tryVariants, decodeVariant,
      checkActionLit, clickFields, decOptStr, decOptInt, ha, hx, hy, hd, hr]
  · intro ha hx hy hd hr
    simp [decodeAction, anyActionVariants, tryVariants, decodeVariant,
      checkActionLit, clickFields, doubleClickFields, decOptStr, decOptInt,
      ha, hx, hy, hd, hr]

/-- Witness for C4 at the minimal raw record `{"action": "CLICK"}`. -/
theorem click_without_target_witness :
    decodeAction [("action", JVal.str "CLICK")] =
      .ok (.click none none none none) ∧
    execStep ⟨fun _ => none, fun _ => .ok ()⟩ (.click none none none none) =
      .error "click target could not be resolved" := by
  have h := click_without_target [("action", JVal.str "CLICK")]
    ⟨fun _ => none, fun _ => .ok ()⟩ none
  exact ⟨h.1 rfl rfl rfl rfl rfl, h.2.2.1⟩

/-- C9: a validated plan without terminal actions whose every step
dispatches without error runs every action in order and ends `Completed`
with no message (implicit success; engine modelled from the spec since
`orchestrator.py` is absent from the repository). -/
theorem exec_exhaustion_completes (env : ExecEnv) (plan : List Action)
    (hterm : ∀ a ∈ plan, isTaskComplete a = false ∧ isTaskFailed a = false)
    (hok : ∀ a ∈ plan, execStep env a = .ok ()) :
    execActions env plan = (.Completed none, plan) := by
  induction plan with
  | nil => rfl
  | cons a rest ih =>
    have ha := hterm a (List.mem_cons_self a rest)
    have hd := hok a (List.mem_cons_self a rest)
    have ih2 := ih (fun b hb => hterm b (List.mem_cons_of_mem a hb))
      (fun b hb => hok b (List.mem_cons_of_mem a hb))
    simp [execActions, ha.1, ha.2, hd, ih2]

/-- A concrete ten-step plan with no terminal action, used as the C9
witness input. -/
def plan10 : List Action :=
  [.wait 1000 none, .pressKey "enter" none, .typeText "a" 1 none,
   .scroll .up 10 none, .moveMouse 1 2 0 none, .openApplication "x" none,
   .navigateWebsite "u" none, .takeScreenshot none,
   .analyzeScreenshot "p" none, .findApp "f" none]

/-- Witness for C9: the ten-step plan ends `Completed` with no message
after all ten actions run. -/
theorem exec_exhaustion_completes_witness :
    execActions ⟨fun _ => none, fun _ => .ok ()⟩ plan10 =
      (.Completed none, plan10) :=
  exec_exhaustion_completes ⟨fun _ => none, fun _ => .ok ()⟩ plan10
    (by decide) (by decide)

/-- Witness for C10 with the key set `["enter"]` and the name `ENTER`. -/
theorem press_key_case_insensitive_witness :
    (∃ e, press_key ["enter"] "ENTER" = .ok e) ∧
    press_key ["enter"] "ENTER" = press_key ["enter"] "enter" := by
  have h := press_key_case_insensitive ["enter"] "ENTER"
  exact ⟨h.1.mpr (by decide), h.2.2 (by decide)⟩

/-- C7: the polling loop of `analyze_image` has no iteration ceiling — it
returns (under some fuel) exactly when some poll reads a terminal status,
and under a constant `processing` status no amount of fuel ends it. -/
theorem analyze_image_poll_unbounded (status : Nat → String) :
    ((∃ fuel j, pollLoop status fuel 0 = some j ∧
        isTerminalStatus (status j) = true) ↔
      (∃ k, isTerminalStatus (status k) = true)) ∧
    (∀ fuel k, pollLoop (fun _ => "processing") fuel k = none) := by
  constructor
  · constructor
    · rintro ⟨fuel, j, hj, ht⟩
      exact ⟨j, ht⟩
    · rintro ⟨k, hk⟩
      have h0 : isTerminalStatus (status (0 + k)) = true := by simpa using hk
      obtain ⟨j, hj⟩ := pollLoop_reaches status k 0 h0
      exact ⟨k + 1, j, hj, pollLoop_some_terminal status (k + 1) 0 j hj⟩
  · intro fuel
    induction fuel with
    | zero => intro k; rfl
    | succ n ih =>
      intro k
      have hp : isTerminalStatus "processing" = false := by decide
      simp [pollLoop, hp]
      exact ih (k + 1)

/-- C1 counterexample: the empty raw record — which has no `action`
discriminant at all — is accepted by plan validation as a `CLICK` action,
because every union member's `action` literal carries a default and
`ClickAction`, the first member, has no required fields. -/
theorem missing_discriminant_accepted :
    RawStep.get [] "action" = none ∧
    validatePlan [([] : RawStep)] = .ok [.click none none none none] :=
  ⟨rfl, by decide⟩

/-- C1 amended: for every raw step whose `action` value is present but
outside the closed literal set (or not a string), the record is never
accepted as an action, and validating the plan rejects it with an error
list containing the offending index; a record with `action` absent is
instead accepted through the defaults (see the counterexample). -/
theorem unrecognized_discriminant_rejected (steps : List RawStep) (i : Nat)
    (r : RawStep) (v : JVal)
    (hstep : steps[i]? = some r)
    (hact : r.get "action" = some v)
    (hbad : isRecognizedDiscriminant v = false) :
    decodeAction r = .error .noVariant ∧
    validatePlan steps = .error (validateSteps 0 steps).1 ∧
    (i, VErr.noVariant) ∈ (validateSteps 0 steps).1 := by
  have hdec := decodeAction_unrecognized r v hact hbad
  have hmem : (0 + i, VErr.noVariant) ∈ (validateSteps 0 steps).1 :=
    validateSteps_err_mem 0 i steps r hstep .noVariant hdec
  rw [Nat.zero_add] at hmem
  have hne : (validateSteps 0 steps).1 ≠ [] := by
    intro he
    rw [he] at hmem
    simp at hmem
  exact ⟨hdec, validatePlan_err steps hne, hmem⟩

/-- Witness for the amended C1 at the record `{"action": "NOPE"}` placed
at index 0. -/
theorem unrecognized_discriminant_witness :
    decodeAction [("action", JVal.str "NOPE")] = .error .noVariant ∧
    validatePlan [[("action", JVal.str "NOPE")]] =
      .error (validateSteps 0 [[("action", JVal.str "NOPE")]]).1 ∧
    (0, VErr.noVariant) ∈ (validateSteps 0 [[("action", JVal.str "NOPE")]]).1 :=
  unrecognized_discriminant_rejected [[("action", JVal.str "NOPE")]] 0
    [("action", JVal.str "NOPE")] (.str "NOPE") rfl rfl (by decide)

/-- C5: validation is idempotent — serializing a successfully validated
plan back to its raw form and validating again yields the same actions. -/
theorem validate_dump_idempotent (steps : List RawStep) (acts : List Action)
    (h : validatePlan steps = .ok acts) :
    validatePlan (planDump acts) = .ok acts := by
  have hwf : ∀ a ∈ acts, actionWF a := by
    unfold validatePlan at h
    cases hv : validateSteps 0 steps with
    | mk errs acts2 =>
      rw [hv] at h
      cases errs with
      | nil =>
        simp at h
        subst h
        intro a ha
        obtain ⟨r, hr⟩ := validateSteps_ok_mem steps 0 [] acts2 hv a ha
        exact decodeAction_wf r a hr
      | cons p ps => simp at h
  have hdec : ∀ a ∈ acts, decodeAction (model_dump a) = .ok a :=
    fun a ha => decode_dump a (hwf a ha)
  have hall := validateSteps_dump acts hdec 0
  unfold validatePlan
  rw [hall]

/-- Witness for C5 at the one-step raw plan `{"action": "PRESS_KEY",
"key_name": "enter"}`. -/
theorem validate_dump_idempotent_witness :
    validatePlan (planDump [Action.pressKey "enter" none]) =
      .ok [Action.pressKey "enter" none] :=
  validate_dump_idempotent
    [[("action", JVal.str "PRESS_KEY"), ("key_name", JVal.str "enter")]]
    [.pressKey "enter" none] (by decide)

end VW
